import Mathlib

/-!
Verification development for the git-shade synchronization core.

The definitions below are a shallow embedding of the Rust sources:
timestamps (`chrono::DateTime<Utc>`) are modelled as `Int`, byte sizes as
`Nat`, paths as `String` (or as component lists for the copy engine), and
the filesystem / git side effects of the executors are recorded as explicit
effect logs on pure inputs.
-/

namespace GitShade

/-- The six sync states of `src/core/sync.rs` (`enum SyncState`). -/
inductive SyncState where
  | InSync
  | LocalAhead
  | RemoteAhead
  | Conflict
  | LocalOnly
  | RemoteOnly
deriving DecidableEq, Repr

/-- `FileMetadata` from `src/core/sync.rs`: a file snapshot carrying its
path, modification timestamp (modelled as `Int`) and byte size. -/
structure FileMetadata where
  path : String
  modified : Int
  size : Nat
deriving DecidableEq, Repr

/-- `detect_sync_state` from `src/core/sync.rs`: compares an optional local
snapshot, an optional remote snapshot and the optional `last_pull`
watermark. Mirrors the Rust `match` arm for arm; the `(Some, Some, Some)`
arm first short-circuits on equal `(modified, size)` and then matches on
the pair of `modified > last_pull` booleans. -/
def detect_sync_state (local_file remote_file : Option FileMetadata)
    (last_pull : Option Int) : SyncState :=
  match local_file, remote_file, last_pull with
  | none, none, _ => .InSync
  | some _, none, _ => .LocalOnly
  | none, some _, _ => .RemoteOnly
  | some l, some r, some w =>
      if l.modified = r.modified ∧ l.size = r.size then .InSync
      else if w < l.modified then
        (if w < r.modified then .Conflict else .LocalAhead)
      else
        (if w < r.modified then .RemoteAhead else .InSync)
  | some l, some r, none =>
      if l.modified = r.modified ∧ l.size = r.size then .InSync
      else .RemoteAhead

/-- `ConflictInfo` from `src/core/conflict.rs`: the record built for each
file classified `Conflict` during a non-force pull. -/
structure ConflictInfo where
  file : String
  local_modified : Int
  remote_modified : Int
  last_pull : Int
deriving DecidableEq, Repr

/-- Error cases of `src/error.rs` reachable from the modelled executors. -/
inductive ShadeError where
  | conflictDetected (files : List String)
  | noFilesTracked
  | gitError (msg : String)
deriving DecidableEq, Repr

/-- One file enumerated under the project's shade directory in
`commands/pull.rs`: its relative path together with the snapshots the pull
loop takes of the local copy and the shade (remote) copy. -/
structure ShadeFile where
  path : String
  localMeta : Option FileMetadata
  remoteMeta : Option FileMetadata
deriving DecidableEq, Repr

/-- Default metadata standing for the value Rust would never read: the pull
loop only dereferences the snapshots (`unwrap`) in the `Conflict` branch,
where both are present (proved below for `detect_sync_state`). -/
def dfltMeta : FileMetadata := ⟨"", 0, 0⟩

namespace Pull

/-- The classification the pull loop computes for one shade file
(`detect_sync_state(local_meta, remote_meta, last_pull)` in
`commands/pull.rs`). -/
def fileClass (last_pull : Option Int) (f : ShadeFile) : SyncState :=
  detect_sync_state f.localMeta f.remoteMeta last_pull

/-- The `ConflictInfo::new(...)` call of `commands/pull.rs` (the `unwrap`s
are modelled by `Option.getD`; the `Conflict` classification guarantees the
defaults are never read). -/
def conflictInfoOf (last_pull : Option Int) (f : ShadeFile) : ConflictInfo :=
  ⟨f.path, (f.localMeta.getD dfltMeta).modified,
    (f.remoteMeta.getD dfltMeta).modified, last_pull.getD 0⟩

/-- Accumulator of the pull classification loop: the `conflicts`,
`files_to_sync` and `files_to_add_to_exclude` vectors of
`commands/pull.rs`. -/
abbrev Acc := List ConflictInfo × List (String × String) × List String

/-- One iteration of the `for shade_file_path in &shade_files` loop of
`commands/pull.rs` (step 9): classify the file and push onto the matching
accumulator, arm for arm as in the Rust `match state`. -/
def classifyStep (force : Bool) (last_pull : Option Int)
    (tracked_patterns : List String) (acc : Acc) (f : ShadeFile) : Acc :=
  match fileClass last_pull f with
  | .Conflict =>
      if force then (acc.1, acc.2.1 ++ [(f.path, "overwritten")], acc.2.2)
      else (acc.1 ++ [conflictInfoOf last_pull f], acc.2.1, acc.2.2)
  | .RemoteAhead =>
      if f.path ∈ tracked_patterns then
        (acc.1, acc.2.1 ++ [(f.path, "copied")], acc.2.2)
      else
        (acc.1, acc.2.1 ++ [(f.path, "copied")], acc.2.2 ++ [f.path])
  | .RemoteOnly =>
      if f.path ∈ tracked_patterns then
        (acc.1, acc.2.1 ++ [(f.path, "copied")], acc.2.2)
      else
        (acc.1, acc.2.1 ++ [(f.path, "copied")], acc.2.2 ++ [f.path])
  | .InSync => acc
  | .LocalAhead => acc
  | .LocalOnly => acc

/-- The `conflicts` vector the loop produces, expressed directly: the files
classified `Conflict`, kept only when `force` is false. -/
def conflictList (force : Bool) (last_pull : Option Int)
    (files : List ShadeFile) : List ConflictInfo :=
  files.filterMap (fun f =>
    match fileClass last_pull f with
    | .Conflict => if force then none else some (conflictInfoOf last_pull f)
    | _ => none)

/-- The `files_to_sync` vector, expressed directly: `Conflict` under
`force` becomes `"overwritten"`, `RemoteAhead`/`RemoteOnly` become
`"copied"`. -/
def syncList (force : Bool) (last_pull : Option Int)
    (files : List ShadeFile) : List (String × String) :=
  files.filterMap (fun f =>
    match fileClass last_pull f with
    | .Conflict => if force then some (f.path, "overwritten") else none
    | .RemoteAhead => some (f.path, "copied")
    | .RemoteOnly => some (f.path, "copied")
    | _ => none)

/-- The `files_to_add_to_exclude` vector, expressed directly: the
`RemoteAhead`/`RemoteOnly` paths not already among the tracked patterns. -/
def excludeList (last_pull : Option Int) (tracked_patterns : List String)
    (files : List ShadeFile) : List String :=
  files.filterMap (fun f =>
    match fileClass last_pull f with
    | .RemoteAhead => if f.path ∈ tracked_patterns then none else some f.path
    | .RemoteOnly => if f.path ∈ tracked_patterns then none else some f.path
    | _ => none)

/-- Effects of a pull that got past the conflict gate: the relative paths
actually copied into the project, the patterns passed to `add_to_exclude`,
whether `tracker.update_pull()` + `save` ran, and the per-file `(path,
action)` lines the run reports. -/
structure PullEffects where
  copies : List String
  patternsAdded : List String
  watermarkUpdated : Bool
  reported : List (String × String)
deriving DecidableEq, Repr

/-- Steps 9–13 of `run` in `commands/pull.rs`, as a pure function of the
enumerated shade files, the `last_pull` watermark, and the tracked
patterns read from `.git/info/exclude`. The classification loop feeds the
conflict gate (step 10); an error return there precedes every mutation, so
the `conflictDetected` outcome carries no effects. The `files_to_sync`
early return ("All files are in sync") is the effect-free `ok`. -/
def run (force dry_run : Bool) (files : List ShadeFile) (last_pull : Option Int)
    (tracked_patterns : List String) : Except ShadeError PullEffects :=
  let acc := files.foldl (classifyStep force last_pull tracked_patterns) ([], [], [])
  let conflicts := acc.1
  let files_to_sync := acc.2.1
  let files_to_add_to_exclude := acc.2.2
  if !conflicts.isEmpty && !force then
    .error (.conflictDetected (conflicts.map (·.file)))
  else if files_to_sync.isEmpty then
    .ok ⟨[], [], false, []⟩
  else
    .ok ⟨if dry_run then [] else files_to_sync.map (·.1),
         if !files_to_add_to_exclude.isEmpty && !dry_run then
           files_to_add_to_exclude
         else [],
         !dry_run,
         files_to_sync⟩

/-- The loop accumulator is the direct description of the three vectors. -/
theorem classify_foldl (force : Bool) (lp : Option Int) (tracked : List String)
    (files : List ShadeFile) (acc : Acc) :
    files.foldl (classifyStep force lp tracked) acc =
      (acc.1 ++ conflictList force lp files,
       acc.2.1 ++ syncList force lp files,
       acc.2.2 ++ excludeList lp tracked files) := by
  induction files generalizing acc with
  | nil => simp [conflictList, syncList, excludeList]
  | cons f fs ih =>
      simp only [List.foldl_cons]
      rw [ih]
      simp only [conflictList, syncList, excludeList, List.filterMap_cons]
      cases h : fileClass lp f <;>
        simp only [classifyStep, h] <;>
        split <;>
        simp [List.append_assoc]

end Pull

/-- `str::contains` of Rust, modelled on the character lists: the pattern
occurs as a contiguous infix of the string. -/
def strContains (s pat : String) : Bool :=
  decide (pat.data <:+: s.data)

/-- `pattern.trim_end_matches('/')` of `commands/push.rs`: drop every
trailing slash. -/
def trimTrailingSlashes (s : String) : String :=
  String.mk ((s.data.reverse.dropWhile (fun c => c = '/')).reverse)

/-- Presence of a tracked pattern's cleaned path in the local project tree
(`file_path.exists()` / `file_path.is_dir()` in `commands/push.rs`). -/
inductive LocalKind where
  | missing
  | file
  | dir
deriving DecidableEq, Repr

namespace Push

/-- Input of a push run: each tracked pattern read from
`.git/info/exclude` paired with the state of its local path, plus the
outcomes of the external git calls (`add`, `commit` with its stderr,
`remote -v` nonemptiness, `push`). -/
structure PushInput where
  patterns : List (String × LocalKind)
  addOk : Bool
  commitOk : Bool
  commitStderr : String
  hasRemote : Bool
  pushOk : Bool
deriving Repr

/-- The patterns after `trim_end_matches('/')`, still paired with their
local state. -/
def cleaned (patterns : List (String × LocalKind)) : List (String × LocalKind) :=
  patterns.map (fun p => (trimTrailingSlashes p.1, p.2))

/-- The cleaned patterns whose local path exists: these are copied
local → shade, file or directory alike. -/
def copiedOf (patterns : List (String × LocalKind)) : List String :=
  ((cleaned patterns).filter (fun p => ¬ p.2 = LocalKind.missing)).map (·.1)

/-- The cleaned patterns whose local path is missing: these are skipped
with a "(not found, skipped)" warning. -/
def skippedOf (patterns : List (String × LocalKind)) : List String :=
  ((cleaned patterns).filter (fun p => p.2 = LocalKind.missing)).map (·.1)

/-- Effects of a push run: what was copied, what was skipped with a
warning, whether a commit was made (false also covers the tolerated
"nothing to commit" outcome), whether a git push ran, whether the
no-remote warning was printed, and whether `tracker.update_push()` +
`save` ran. -/
structure PushEffects where
  copied : List String
  skippedWarnings : List String
  committed : Bool
  pushed : Bool
  noRemoteWarning : Bool
  lastPushUpdated : Bool
deriving DecidableEq, Repr

/-- `run` of `commands/push.rs` after the initialization checks, as a pure
function of the push input. Mirrors the source order: empty pattern list →
`NoFilesTracked`; copy loop with per-pattern skip; `copied_count == 0` →
effect-free early `Ok`; `git add` failure → error; `git commit` failure is
tolerated exactly when its stderr contains "nothing to commit" or
"no changes added"; `git push` runs only when a remote is configured and
its failure is an error; otherwise the no-remote warning is printed, the
run still succeeds, and `last_push` is updated and saved. -/
def run (inp : PushInput) : Except ShadeError PushEffects :=
  if inp.patterns.isEmpty then .error .noFilesTracked
  else
    let copied := copiedOf inp.patterns
    let skipped := skippedOf inp.patterns
    if copied.isEmpty then .ok ⟨[], skipped, false, false, false, false⟩
    else if !inp.addOk then .error (.gitError "git add failed")
    else if !inp.commitOk &&
        !(strContains inp.commitStderr "nothing to commit" ||
          strContains inp.commitStderr "no changes added") then
      .error (.gitError "git commit failed")
    else if inp.hasRemote && !inp.pushOk then
      .error (.gitError "git push failed")
    else
      .ok ⟨copied, skipped, inp.commitOk, inp.hasRemote && inp.pushOk,
           !inp.hasRemote, true⟩

end Push

/-- A filesystem path as a list of components (the component view Rust's
`Path::strip_prefix` compares on). -/
abbrev PathC := List String

/-- File contents as a byte list. -/
abbrev FileBytes := List Nat

/-- The filesystem as a partial map from paths to contents; directories are
implicit (``create_dir_all`` has no observable effect in this view beyond
making the write below possible). -/
abbrev FS := PathC → Option FileBytes

/-- Point update of the filesystem map: the write `fs::copy` performs at
the destination, overwriting whatever was there. -/
def fsWrite (fs : FS) (p : PathC) (v : Option FileBytes) : FS :=
  fun q => if q = p then v else fs q

/-- `copy_file_preserve_structure` from `src/utils/fs.rs`:
`src.strip_prefix(src_base)` (error when `src` is not inside `src_base`,
before anything is copied), destination `dest_base.join(rel_path)`,
`create_dir_all` on the parent (implicit here), then `fs::copy` — a full
byte copy that fails if the source is unreadable and overwrites an
existing destination. Returns the destination path. -/
def copy_file_preserve_structure (fs : FS) (src src_base dest_base : PathC) :
    Except String (FS × PathC) :=
  if src_base.isPrefixOf src then
    let rel_path := src.drop src_base.length
    let dest := dest_base ++ rel_path
    match fs src with
    | none => .error "Failed to copy"
    | some bytes => .ok (fsWrite fs dest (some bytes), dest)
  else
    .error "Failed to calculate relative path"

end GitShade

deriving instance DecidableEq for Except

namespace GitShade

/-! ## Claim theorems -/

/-- C1: for Present snapshots that differ in `(modified, size)` and a
present watermark `W`, `detect_sync_state` follows the four-row table:
both `≤ W` → `InSync`; only local `> W` → `LocalAhead`; only remote `> W`
→ `RemoteAhead`; both `> W` → `Conflict`. -/
theorem detect_sync_state_watermark_table (l r : FileMetadata) (W : Int)
    (hdiff : l.modified ≠ r.modified ∨ l.size ≠ r.size) :
    (l.modified ≤ W → r.modified ≤ W →
      detect_sync_state (some l) (some r) (some W) = .InSync) ∧
    (l.modified > W → r.modified ≤ W →
      detect_sync_state (some l) (some r) (some W) = .LocalAhead) ∧
    (l.modified ≤ W → r.modified > W →
      detect_sync_state (some l) (some r) (some W) = .RemoteAhead) ∧
    (l.modified > W → r.modified > W →
      detect_sync_state (some l) (some r) (some W) = .Conflict) := by
  have hne : ¬ (l.modified = r.modified ∧ l.size = r.size) := by tauto
  refine ⟨?_, ?_, ?_, ?_⟩ <;> intro h1 h2 <;>
    simp only [detect_sync_state, if_neg hne]
  · rw [if_neg (by omega), if_neg (by omega)]
  · rw [if_pos (by omega), if_neg (by omega)]
  · rw [if_neg (by omega), if_pos (by omega)]
  · rw [if_pos (by omega), if_pos (by omega)]

/-- Concrete instance of the C1 theorem: snapshots `(1,1)` and `(2,1)`
against watermark `5` are both unmodified since the pull, so `InSync`. -/
theorem detect_sync_state_watermark_table_witness :
    ((⟨"f", 1, 1⟩ : FileMetadata).modified ≠ (⟨"f", 2, 1⟩ : FileMetadata).modified ∨
     (⟨"f", 1, 1⟩ : FileMetadata).size ≠ (⟨"f", 2, 1⟩ : FileMetadata).size) ∧
    (⟨"f", 1, 1⟩ : FileMetadata).modified ≤ 5 ∧
    (⟨"f", 2, 1⟩ : FileMetadata).modified ≤ 5 ∧
    detect_sync_state (some ⟨"f", 1, 1⟩) (some ⟨"f", 2, 1⟩) (some 5) = .InSync :=
  ⟨by decide, by decide, by decide,
    (detect_sync_state_watermark_table ⟨"f", 1, 1⟩ ⟨"f", 2, 1⟩ 5
      (by decide)).1 (by decide) (by decide)⟩

/-- C5: two Present snapshots with equal `(modified, size)` classify as
`InSync` for every watermark, present or absent — content is never
inspected. -/
theorem detect_sync_state_identical_snapshots (l r : FileMetadata)
    (w : Option Int) (hm : l.modified = r.modified) (hs : l.size = r.size) :
    detect_sync_state (some l) (some r) w = .InSync := by
  cases w <;> simp [detect_sync_state, hm, hs]

/-- Concrete instance of the C5 theorem: equal `(modified, size)` with an
absent watermark (the paths, standing for distinct contents, differ). -/
theorem detect_sync_state_identical_snapshots_witness :
    (⟨"a", 4, 7⟩ : FileMetadata).modified = (⟨"b", 4, 7⟩ : FileMetadata).modified ∧
    (⟨"a", 4, 7⟩ : FileMetadata).size = (⟨"b", 4, 7⟩ : FileMetadata).size ∧
    detect_sync_state (some ⟨"a", 4, 7⟩) (some ⟨"b", 4, 7⟩) none = .InSync :=
  ⟨rfl, rfl, detect_sync_state_identical_snapshots ⟨"a", 4, 7⟩ ⟨"b", 4, 7⟩ none rfl rfl⟩

/-- C9: for every watermark, absence decides the state alone:
`(Absent, Absent) → InSync`, `(Present, Absent) → LocalOnly`,
`(Absent, Present) → RemoteOnly`. -/
theorem detect_sync_state_presence_cases (m : FileMetadata) (w : Option Int) :
    detect_sync_state none none w = .InSync ∧
    detect_sync_state (some m) none w = .LocalOnly ∧
    detect_sync_state none (some m) w = .RemoteOnly := by
  cases w <;> exact ⟨rfl, rfl, rfl⟩

/-- C10: `detect_sync_state` returns `Conflict` only when the local
snapshot, the remote snapshot and the watermark are all present — so the
`unwrap`s in the pull executor's `ConflictInfo::new` call cannot panic. -/
theorem detect_sync_state_conflict_requires_presence
    (l r : Option FileMetadata) (w : Option Int)
    (h : detect_sync_state l r w = .Conflict) :
    l.isSome = true ∧ r.isSome = true ∧ w.isSome = true := by
  cases l <;> cases r <;> cases w <;>
    simp only [Option.isSome_some, Option.isSome_none, and_self] <;>
    simp only [detect_sync_state] at h <;>
    first
      | trivial
      | (split at h <;> simp_all)

/-- Helper: with `force` off, the conflict vector is the `Conflict`-classified
files in enumeration order. -/
theorem conflictList_false_eq (lp : Option Int) (files : List ShadeFile) :
    Pull.conflictList false lp files =
      (files.filter (fun f => Pull.fileClass lp f = .Conflict)).map
        (Pull.conflictInfoOf lp) := by
  induction files with
  | nil => rfl
  | cons f fs ih =>
      rw [Pull.conflictList, List.filterMap_cons, List.filter_cons]
      rw [Pull.conflictList] at ih
      rw [ih]
      cases h : Pull.fileClass lp f <;> simp [h]

/-- Helper: with `force` off, the sync vector is the
`RemoteAhead`/`RemoteOnly` files tagged `"copied"`, in enumeration order. -/
theorem syncList_false_eq (lp : Option Int) (files : List ShadeFile) :
    Pull.syncList false lp files =
      (files.filter (fun f =>
        Pull.fileClass lp f = .RemoteAhead ∨ Pull.fileClass lp f = .RemoteOnly)).map
        (fun f => (f.path, "copied")) := by
  induction files with
  | nil => rfl
  | cons f fs ih =>
      rw [Pull.syncList, List.filterMap_cons, List.filter_cons]
      rw [Pull.syncList] at ih
      rw [ih]
      cases h : Pull.fileClass lp f <;> simp [h]

/-- Helper: the exclude vector is the `RemoteAhead`/`RemoteOnly` files whose
path is not yet tracked, in enumeration order. -/
theorem excludeList_eq (lp : Option Int) (tracked : List String)
    (files : List ShadeFile) :
    Pull.excludeList lp tracked files =
      (files.filter (fun f =>
        (Pull.fileClass lp f = .RemoteAhead ∨ Pull.fileClass lp f = .RemoteOnly) ∧
        f.path ∉ tracked)).map (·.path) := by
  induction files with
  | nil => rfl
  | cons f fs ih =>
      rw [Pull.excludeList, List.filterMap_cons, List.filter_cons]
      rw [Pull.excludeList] at ih
      rw [ih]
      cases h : Pull.fileClass lp f <;>
        by_cases ht : f.path ∈ tracked <;>
        simp [h, ht]

/-- Helper: when nothing is queued for syncing, nothing is queued for the
exclude file either (every exclude entry comes from a synced file). -/
theorem excludeList_nil_of_syncList_nil (force : Bool) (lp : Option Int)
    (tracked : List String) (files : List ShadeFile)
    (h : Pull.syncList force lp files = []) :
    Pull.excludeList lp tracked files = [] := by
  rw [Pull.syncList, List.filterMap_eq_nil_iff] at h
  rw [Pull.excludeList, List.filterMap_eq_nil_iff]
  intro f hf
  have hy := h f hf
  cases hc : Pull.fileClass lp f <;> simp [hc] at hy ⊢

/-- C2: a non-force pull that classifies at least one file as `Conflict`
returns the conflict-detected error whose file list is exactly the
`Conflict`-classified paths in enumeration order. In this embedding the
error outcome carries no effect log: in the source the `return Err(...)`
of the gate (step 10) precedes every copy, every `add_to_exclude` call and
the watermark update (steps 11–13), so no mutation accompanies it. -/
theorem pull_conflict_gate (dry_run : Bool) (files : List ShadeFile)
    (last_pull : Option Int) (tracked : List String)
    (h : ∃ f ∈ files, Pull.fileClass last_pull f = .Conflict) :
    Pull.run false dry_run files last_pull tracked =
      .error (.conflictDetected
        ((files.filter (fun f => Pull.fileClass last_pull f = .Conflict)).map
          (·.path))) := by
  obtain ⟨f, hf, hc⟩ := h
  have hmem : f ∈ files.filter (fun f => Pull.fileClass last_pull f = .Conflict) :=
    List.mem_filter.mpr ⟨hf, by simp [hc]⟩
  have hne : (Pull.conflictList false last_pull files).isEmpty = false := by
    rw [conflictList_false_eq, List.isEmpty_eq_false]
    simp only [ne_eq, List.map_eq_nil_iff]
    intro hnil
    rw [hnil] at hmem
    exact List.not_mem_nil f hmem
  simp only [Pull.run, Pull.classify_foldl, List.nil_append, hne,
    Bool.not_false, Bool.and_true, if_true]
  rw [conflictList_false_eq, List.map_map]
  rfl

/-- Concrete instance of the C2 theorem: one file modified on both sides
after the watermark aborts the pull with exactly that path. -/
theorem pull_conflict_gate_witness :
    (∃ f ∈ ([⟨"b", some ⟨"b", 3, 1⟩, some ⟨"b", 7, 2⟩⟩] : List ShadeFile),
      Pull.fileClass (some 0) f = .Conflict) ∧
    Pull.run false false [⟨"b", some ⟨"b", 3, 1⟩, some ⟨"b", 7, 2⟩⟩] (some 0) [] =
      .error (.conflictDetected
        ((([⟨"b", some ⟨"b", 3, 1⟩, some ⟨"b", 7, 2⟩⟩] : List ShadeFile).filter
          (fun f => Pull.fileClass (some 0) f = .Conflict)).map (·.path))) :=
  ⟨by decide,
    pull_conflict_gate false [⟨"b", some ⟨"b", 3, 1⟩, some ⟨"b", 7, 2⟩⟩]
      (some 0) [] (by decide)⟩

/-- C3: a dry-run, non-force pull with no conflicting file copies nothing,
adds no pattern and leaves the watermark alone, while its report still
names every `RemoteAhead`/`RemoteOnly` file as `"copied"`. -/
theorem pull_dry_run_plan_only (files : List ShadeFile) (last_pull : Option Int)
    (tracked : List String)
    (h : ∀ f ∈ files, Pull.fileClass last_pull f ≠ .Conflict) :
    Pull.run false true files last_pull tracked =
      .ok ⟨[], [], false,
        (files.filter (fun f =>
          Pull.fileClass last_pull f = .RemoteAhead ∨
          Pull.fileClass last_pull f = .RemoteOnly)).map
          (fun f => (f.path, "copied"))⟩ := by
  have hconf : Pull.conflictList false last_pull files = [] := by
    rw [conflictList_false_eq]
    rw [List.filter_eq_nil_iff.mpr (by intro f hf; simp [h f hf])]
    rfl
  simp only [Pull.run, Pull.classify_foldl, List.nil_append, hconf,
    List.isEmpty_nil, Bool.not_true, Bool.false_and, Bool.false_eq_true,
    if_false, Bool.and_false]
  rw [syncList_false_eq]
  split
  · rename_i hs
    rw [List.isEmpty_iff] at hs
    rw [hs]
  · rfl

/-- Concrete instance of the C3 theorem: one remote-only file is reported
as `"copied"` but nothing is mutated. -/
theorem pull_dry_run_plan_only_witness :
    (∀ f ∈ ([⟨"a", none, some ⟨"a", 5, 1⟩⟩] : List ShadeFile),
      Pull.fileClass none f ≠ .Conflict) ∧
    Pull.run false true [⟨"a", none, some ⟨"a", 5, 1⟩⟩] none [] =
      .ok ⟨[], [], false,
        (([⟨"a", none, some ⟨"a", 5, 1⟩⟩] : List ShadeFile).filter (fun f =>
          Pull.fileClass none f = .RemoteAhead ∨
          Pull.fileClass none f = .RemoteOnly)).map
          (fun f => (f.path, "copied"))⟩ :=
  ⟨by decide,
    pull_dry_run_plan_only [⟨"a", none, some ⟨"a", 5, 1⟩⟩] none [] (by decide)⟩

/-- C4 fails as stated: a non-dry-run pull over a single already-in-sync
file completes successfully yet never calls `tracker.update_pull()` — the
"All files are in sync. No changes needed." early return precedes the
watermark update. -/
theorem pull_in_sync_skips_watermark_cex :
    Pull.run false false [⟨"a", some ⟨"a", 5, 3⟩, some ⟨"a", 5, 3⟩⟩] (some 9) [] =
      .ok ⟨[], [], false, []⟩ := by
  decide

/-- C4 amended: a non-dry-run pull that completes successfully and
actually had files to sync (a nonempty report) updates and persists the
`last_pull` watermark (the value written is the clock at the update step,
at or after the operation's start). -/
theorem pull_watermark_update_requires_sync (force : Bool)
    (files : List ShadeFile) (last_pull : Option Int) (tracked : List String)
    (eff : Pull.PullEffects)
    (h : Pull.run force false files last_pull tracked = .ok eff)
    (hrep : eff.reported ≠ []) :
    eff.watermarkUpdated = true := by
  simp only [Pull.run] at h
  split at h
  · exact absurd h (by simp)
  · split at h
    · injection h with h
      rw [← h] at hrep
      exact absurd rfl hrep
    · injection h with h
      rw [← h]
      rfl

/-- Concrete instance of the amended C4 theorem: a remote-only file is
pulled and the watermark update runs. -/
theorem pull_watermark_update_requires_sync_witness :
    Pull.run false false [⟨"a", none, some ⟨"a", 5, 1⟩⟩] none [] =
      .ok ⟨["a"], ["a"], true, [("a", "copied")]⟩ ∧
    Pull.PullEffects.reported ⟨["a"], ["a"], true, [("a", "copied")]⟩ ≠ [] ∧
    Pull.PullEffects.watermarkUpdated ⟨["a"], ["a"], true, [("a", "copied")]⟩ = true :=
  ⟨by decide, by decide,
    pull_watermark_update_requires_sync false [⟨"a", none, some ⟨"a", 5, 1⟩⟩]
      none [] ⟨["a"], ["a"], true, [("a", "copied")]⟩ (by decide) (by decide)⟩

/-- C6 fails as stated: under `force`, a `Conflict` file is a copy
candidate ("overwritten"), its path is not among the tracked patterns, the
pull is not a dry run and completes — yet `files_to_add_to_exclude` stays
empty, because only the `RemoteAhead`/`RemoteOnly` arm feeds it. -/
theorem pull_force_conflict_pattern_cex :
    Pull.fileClass (some 0) ⟨"a", some ⟨"a", 5, 1⟩, some ⟨"a", 6, 2⟩⟩ = .Conflict ∧
    ("a" ∈ ([] : List String)) = False ∧
    Pull.run true false [⟨"a", some ⟨"a", 5, 1⟩, some ⟨"a", 6, 2⟩⟩] (some 0) [] =
      .ok ⟨["a"], [], true, [("a", "overwritten")]⟩ := by
  refine ⟨by decide, by simp, by decide⟩

/-- C6 amended: in a non-dry-run pull that completes, the patterns added
to the tracked set are exactly the `RemoteAhead`/`RemoteOnly` paths not
already tracked; `Conflict` files pulled under `force` are copied but
their paths are not added. -/
theorem pull_patterns_added_iff_untracked_remote (force : Bool)
    (files : List ShadeFile) (last_pull : Option Int) (tracked : List String)
    (eff : Pull.PullEffects)
    (h : Pull.run force false files last_pull tracked = .ok eff) :
    eff.patternsAdded =
      (files.filter (fun f =>
        (Pull.fileClass last_pull f = .RemoteAhead ∨
         Pull.fileClass last_pull f = .RemoteOnly) ∧
        f.path ∉ tracked)).map (·.path) := by
  rw [← excludeList_eq]
  simp only [Pull.run, Pull.classify_foldl, List.nil_append] at h
  split at h
  · exact absurd h (by simp)
  · split at h
    · rename_i hs
      rw [List.isEmpty_iff] at hs
      injection h with h
      rw [← h]
      exact (excludeList_nil_of_syncList_nil force last_pull tracked files hs).symm
    · injection h with h
      rw [← h]
      cases hz : (Pull.excludeList last_pull tracked files).isEmpty
      · simp [hz]
      · rw [List.isEmpty_iff] at hz
        simp [hz]

/-- Concrete instance of the amended C6 theorem: an untracked remote-only
file's path is added to the exclude patterns. -/
theorem pull_patterns_added_iff_untracked_remote_witness :
    Pull.run false false [⟨"c", none, some ⟨"c", 5, 1⟩⟩] none [] =
      .ok ⟨["c"], ["c"], true, [("c", "copied")]⟩ ∧
    Pull.PullEffects.patternsAdded ⟨["c"], ["c"], true, [("c", "copied")]⟩ =
      (([⟨"c", none, some ⟨"c", 5, 1⟩⟩] : List ShadeFile).filter (fun f =>
        (Pull.fileClass none f = .RemoteAhead ∨
         Pull.fileClass none f = .RemoteOnly) ∧
        f.path ∉ ([] : List String))).map (·.path) :=
  ⟨by decide,
    pull_patterns_added_iff_untracked_remote false [⟨"c", none, some ⟨"c", 5, 1⟩⟩]
      none [] ⟨["c"], ["c"], true, [("c", "copied")]⟩ (by decide)⟩

/-- C7: provided at least one tracked pattern's local path exists, `git
add` succeeds, the commit either succeeds or fails with a stderr
containing "nothing to commit" / "no changes added", and `git push`
succeeds whenever a remote is configured, the push run succeeds: missing
patterns are exactly the skipped-with-warning ones, `last_push` is
updated and persisted, and a missing remote only yields the warning. -/
theorem push_tolerates_missing_and_no_remote (inp : Push.PushInput)
    (hex : ∃ p ∈ inp.patterns, p.2 ≠ LocalKind.missing)
    (hadd : inp.addOk = true)
    (hcommit : inp.commitOk = true ∨
      strContains inp.commitStderr "nothing to commit" = true ∨
      strContains inp.commitStderr "no changes added" = true)
    (hpush : inp.hasRemote = true → inp.pushOk = true) :
    Push.run inp =
      .ok ⟨Push.copiedOf inp.patterns, Push.skippedOf inp.patterns,
           inp.commitOk, inp.hasRemote && inp.pushOk, !inp.hasRemote, true⟩ := by
  obtain ⟨p, hp, hkind⟩ := hex
  have h1 : inp.patterns.isEmpty = false :=
    List.isEmpty_eq_false.mpr (List.ne_nil_of_mem hp)
  have hmem : trimTrailingSlashes p.1 ∈ Push.copiedOf inp.patterns := by
    unfold Push.copiedOf Push.cleaned
    refine List.mem_map.mpr ⟨(trimTrailingSlashes p.1, p.2), ?_, rfl⟩
    exact List.mem_filter.mpr
      ⟨List.mem_map.mpr ⟨p, hp, rfl⟩, by simpa using hkind⟩
  have h2 : (Push.copiedOf inp.patterns).isEmpty = false :=
    List.isEmpty_eq_false.mpr (List.ne_nil_of_mem hmem)
  have h3 : (!inp.commitOk &&
      !(strContains inp.commitStderr "nothing to commit" ||
        strContains inp.commitStderr "no changes added")) = false := by
    rcases hcommit with hc | hc | hc <;> simp [hc]
  have h4 : (inp.hasRemote && !inp.pushOk) = false := by
    cases hr : inp.hasRemote
    · simp
    · simp [hpush hr]
  simp only [Push.run, h1, h2, hadd, h3, h4, Bool.false_eq_true, Bool.not_true,
    if_false]

/-- Concrete instance of the C7 theorem: pattern `c` exists and `d/` is
missing; the commit reports "nothing to commit" and no remote is
configured — the push still succeeds and updates `last_push`. -/
theorem push_tolerates_missing_and_no_remote_witness :
    (∃ p ∈ ([("c", LocalKind.file), ("d/", LocalKind.missing)] :
        List (String × LocalKind)), p.2 ≠ LocalKind.missing) ∧
    (Push.PushInput.addOk
      ⟨[("c", .file), ("d/", .missing)], true, false,
       "nothing to commit, working tree clean", false, false⟩ = true) ∧
    strContains "nothing to commit, working tree clean" "nothing to commit" = true ∧
    Push.run ⟨[("c", .file), ("d/", .missing)], true, false,
       "nothing to commit, working tree clean", false, false⟩ =
      .ok ⟨Push.copiedOf [("c", .file), ("d/", .missing)],
           Push.skippedOf [("c", .file), ("d/", .missing)],
           false, false && false, !false, true⟩ :=
  ⟨by decide, by decide, by decide,
    push_tolerates_missing_and_no_remote
      ⟨[("c", .file), ("d/", .missing)], true, false,
       "nothing to commit, working tree clean", false, false⟩
      (by decide) (by decide) (Or.inr (Or.inl (by decide)))
      (by decide)⟩

/-- C8: when `src` lies inside `src_base`, `copy_file_preserve_structure`
returns `dest_base` joined with `src`'s path relative to `src_base`
(intermediate directories are implicit in the map-based filesystem), the
destination afterwards holds exactly the source bytes (overwriting any
previous contents), and every other path is untouched; when `src` is not
inside `src_base` it fails before copying anything. -/
theorem copy_file_preserve_structure_spec (fs : FS)
    (src src_base dest_base : PathC) (bytes : FileBytes) :
    (src_base.isPrefixOf src = true → fs src = some bytes →
      copy_file_preserve_structure fs src src_base dest_base =
        .ok (fsWrite fs (dest_base ++ src.drop src_base.length) (some bytes),
             dest_base ++ src.drop src_base.length) ∧
      fsWrite fs (dest_base ++ src.drop src_base.length) (some bytes)
        (dest_base ++ src.drop src_base.length) = some bytes ∧
      (∀ q, q ≠ dest_base ++ src.drop src_base.length →
        fsWrite fs (dest_base ++ src.drop src_base.length) (some bytes) q =
          fs q)) ∧
    (src_base.isPrefixOf src = false →
      copy_file_preserve_structure fs src src_base dest_base =
        .error "Failed to calculate relative path") := by
  constructor
  · intro hpre hsrc
    refine ⟨?_, ?_, ?_⟩
    · simp [copy_file_preserve_structure, hpre, hsrc]
    · simp [fsWrite]
    · intro q hq
      simp [fsWrite, hq]
  · intro hpre
    simp [copy_file_preserve_structure, hpre]

/-- A small concrete filesystem for exercising the copy engine: the source
file exists and the destination is pre-populated (to be overwritten). -/
def wfs : FS := fun p =>
  if p = ["base", "x", "y.txt"] then some [1, 2, 3]
  else if p = ["dst", "x", "y.txt"] then some [9]
  else none

/-- Concrete instance of the C8 theorem: the relative layout is
reproduced under `dst`, the old destination bytes are overwritten, an
unrelated path is untouched, and a `src` outside the base errors out. -/
theorem copy_file_preserve_structure_spec_witness :
    (["base"] : PathC).isPrefixOf ["base", "x", "y.txt"] = true ∧
    wfs ["base", "x", "y.txt"] = some [1, 2, 3] ∧
    copy_file_preserve_structure wfs ["base", "x", "y.txt"] ["base"] ["dst"] =
      .ok (fsWrite wfs ["dst", "x", "y.txt"] (some [1, 2, 3]),
           ["dst", "x", "y.txt"]) ∧
    fsWrite wfs ["dst", "x", "y.txt"] (some [1, 2, 3]) ["dst", "x", "y.txt"] =
      some [1, 2, 3] ∧
    (["zzz"] : PathC).isPrefixOf ["base", "x", "y.txt"] = false ∧
    copy_file_preserve_structure wfs ["base", "x", "y.txt"] ["zzz"] ["dst"] =
      .error "Failed to calculate relative path" :=
  ⟨by decide, by decide,
    ((copy_file_preserve_structure_spec wfs ["base", "x", "y.txt"] ["base"]
      ["dst"] [1, 2, 3]).1 (by decide) (by decide)).1,
    ((copy_file_preserve_structure_spec wfs ["base", "x", "y.txt"] ["base"]
      ["dst"] [1, 2, 3]).1 (by decide) (by decide)).2.1,
    by decide,
    (copy_file_preserve_structure_spec wfs ["base", "x", "y.txt"] ["zzz"]
      ["dst"] [1, 2, 3]).2 (by decide)⟩

/-- Concrete instance of the C10 theorem at a conflicting input. -/
theorem detect_sync_state_conflict_requires_presence_witness :
    detect_sync_state (some ⟨"a", 5, 1⟩) (some ⟨"a", 3, 2⟩) (some 0) = .Conflict ∧
    ((some (⟨"a", 5, 1⟩ : FileMetadata)).isSome = true ∧
     (some (⟨"a", 3, 2⟩ : FileMetadata)).isSome = true ∧
     (some (0 : Int)).isSome = true) :=
  ⟨by decide,
    detect_sync_state_conflict_requires_presence
      (some ⟨"a", 5, 1⟩) (some ⟨"a", 3, 2⟩) (some 0) (by decide)⟩

end GitShade
